import Mathlib

/-!
Verification of the `@egomobile/redis` cache and cache-fetcher core.

The development shallowly embeds the current implementation:

* `RedisCache.get` / `RedisCache.set` (src/unnamed/part_003, class `RedisCache`),
  together with a model of the underlying redis client as a partial map from
  keys to stored strings plus the EX (expiry seconds) argument passed at write
  time.  A boolean `opOk` / `getOk` parameter models whether the underlying
  client operation succeeds or rejects (connection loss etc.).
* `createRedisCacheFetcher` (src/unnamed/part_001, first/current version, the
  one exposing the extended `fetch` variant): one invocation of the wrapped
  function is embedded as the pure step function `fetchStep` over the
  process-local state `lastValue : Option JVal` (with `none` standing for the
  `NOT_INITIALIZED_YET` sentinel), the captured cache read result, the
  producer's behaviour on this call, and the result the cache write would
  report.

JavaScript values are embedded as the inductive `JVal`; numbers are restricted
to integers (all numbers relevant to the embedded code are epoch-millisecond
timestamps and TTL second counts).  `JSON.stringify` / `JSON.parse` are
builtins of the JavaScript runtime, not code of this repository; they are
modelled by the executable `stringifyVal` / `jsonParse` below (JSON numbers
restricted to integers, object duplicate keys resolved last-wins as in JS).
Thrown values are modelled as `JSError` (an Error object: a message plus an
optional `cause`), matching the errors the embedded code constructs and the
spec's error taxonomy.
-/

namespace EgoRedis

/-- Embedded JavaScript values (numbers restricted to integers). -/
inductive JVal where
  | vundefined
  | vnull
  | vbool (b : Bool)
  | vnum (n : Int)
  | vstr (s : String)
  | varr (elems : List JVal)
  | vobj (fields : List (String × JVal))

/-- Model of a JavaScript `Error` object: `message` plus optional `cause`
(the `cause` option of the `Error` constructor). -/
inductive JSError where
  | mk (message : String) (cause : Option JSError)

/-- Truthiness test `!!v && typeof v === "object"` from the fetcher's cache-hit
check: `null` has typeof "object" but is falsy; arrays and plain objects pass;
every other `JVal` has a different typeof. -/
def JVal.isTruthyObject : JVal → Bool
  | .varr _ => true
  | .vobj _ => true
  | _ => false

/-- Property access `v.name` as used by the fetcher on parsed JSON data:
a present object field yields its value, anything else yields `undefined`
(in particular an object lacking the field, and arrays, which have no such
named property). -/
def JVal.getField (v : JVal) (name : String) : JVal :=
  match v with
  | .vobj fs =>
    match fs.lookup name with
    | some x => x
    | none => .vundefined
  | _ => .vundefined

/-- Nil check `value === null || typeof value === "undefined"` from
`RedisCache.set` (equivalently the `isNil` helper of src/src/utils/internal.ts). -/
def JVal.isNilJS : JVal → Bool
  | .vnull => true
  | .vundefined => true
  | _ => false

/-! ### Model of `JSON.stringify` / `JSON.parse`

These are JavaScript runtime builtins, not repository code; the executable
model below follows their documented behaviour on the `JVal` fragment:
`stringify` returns no string for a top-level `undefined`, drops object fields
holding `undefined` and renders `undefined` array elements as `null`;
`parse` accepts the standard JSON grammar (numbers restricted to integers). -/

/-- Escape of one character inside a JSON string literal. -/
def escapeChar (c : Char) : String :=
  if c = '"' then "\\\""
  else if c = '\\' then "\\\\"
  else if c = '\n' then "\\n"
  else if c = '\t' then "\\t"
  else if c = '\r' then "\\r"
  else String.singleton c

/-- Escape of a whole JSON string literal body. -/
def jsonEscape (s : String) : String :=
  s.data.foldl (fun acc c => acc ++ escapeChar c) ""

mutual

/-- Model of `JSON.stringify`; `none` models the JavaScript result
`undefined` (top-level `undefined` value). -/
def stringifyVal : JVal → Option String
  | .vundefined => none
  | .vnull => some "null"
  | .vbool true => some "true"
  | .vbool false => some "false"
  | .vnum n => some (toString n)
  | .vstr s => some ("\"" ++ jsonEscape s ++ "\"")
  | .varr es => some ("[" ++ stringifyArr es ++ "]")
  | .vobj fs => some ("\x7b" ++ String.intercalate "," (stringifyFields fs) ++ "\x7d")

/-- Array elements of a stringified JSON array; an `undefined` element is
rendered as `null`, as `JSON.stringify` does. -/
def stringifyArr : List JVal → String
  | [] => ""
  | [e] => (stringifyVal e).getD "null"
  | e :: rest => (stringifyVal e).getD "null" ++ "," ++ stringifyArr rest

/-- Rendered `"key":value` parts of a stringified JSON object; fields holding
`undefined` are dropped, as `JSON.stringify` does. -/
def stringifyFields : List (String × JVal) → List String
  | [] => []
  | (k, v) :: rest =>
    match stringifyVal v with
    | none => stringifyFields rest
    | some sv => ("\"" ++ jsonEscape k ++ "\":" ++ sv) :: stringifyFields rest

end

/-- Whitespace skipping of the JSON grammar. -/
def skipWs : List Char → List Char
  | c :: cs => if c = ' ' || c = '\n' || c = '\t' || c = '\r' then skipWs cs else c :: cs
  | [] => []

/-- Value of one hexadecimal digit. -/
def hexVal (c : Char) : Option Nat :=
  if '0' ≤ c && c ≤ '9' then some (c.toNat - 48)
  else if 'a' ≤ c && c ≤ 'f' then some (c.toNat - 87)
  else if 'A' ≤ c && c ≤ 'F' then some (c.toNat - 70)
  else none

/-- Body of a JSON string literal after the opening quote; returns the decoded
string and the input following the closing quote. -/
def parseStringBody : List Char → String → Option (String × List Char)
  | [], _ => none
  | '"' :: rest, acc => some (acc, rest)
  | '\\' :: esc :: rest, acc =>
    if esc = '"' then parseStringBody rest (acc.push '"')
    else if esc = '\\' then parseStringBody rest (acc.push '\\')
    else if esc = '/' then parseStringBody rest (acc.push '/')
    else if esc = 'n' then parseStringBody rest (acc.push '\n')
    else if esc = 't' then parseStringBody rest (acc.push '\t')
    else if esc = 'r' then parseStringBody rest (acc.push '\r')
    else if esc = 'b' then parseStringBody rest (acc.push (Char.ofNat 8))
    else if esc = 'f' then parseStringBody rest (acc.push (Char.ofNat 12))
    else if esc = 'u' then
      match rest with
      | a :: b :: c :: d :: rest2 =>
        match hexVal a, hexVal b, hexVal c, hexVal d with
        | some x, some y, some z, some w =>
          parseStringBody rest2 (acc.push (Char.ofNat (x * 4096 + y * 256 + z * 16 + w)))
        | _, _, _, _ => none
      | _ => none
    else none
  | '\\' :: [], _ => none
  | c :: rest, acc => parseStringBody rest (acc.push c)

/-- Numeric value of a digit list. -/
def digitsToNat (ds : List Char) : Nat :=
  ds.foldl (fun a c => a * 10 + (c.toNat - 48)) 0

/-- Integer literal of the JSON grammar (the model restricts JSON numbers to
integers). -/
def parseNum : List Char → Option (Int × List Char)
  | '-' :: rest =>
    let ds := rest.takeWhile (·.isDigit)
    if ds.isEmpty then none
    else some (-(digitsToNat ds : Int), rest.drop ds.length)
  | cs =>
    let ds := cs.takeWhile (·.isDigit)
    if ds.isEmpty then none
    else some ((digitsToNat ds : Int), cs.drop ds.length)

/-- Insertion of a parsed object field; a duplicate key keeps the last value,
as `JSON.parse` does. -/
def objInsert (fs : List (String × JVal)) (k : String) (v : JVal) : List (String × JVal) :=
  fs.filter (fun p => p.1 ≠ k) ++ [(k, v)]

mutual

/-- Recursive-descent JSON value parse (fuel-indexed; fuel only bounds the
recursion and is chosen large enough at the `jsonParse` entry point). -/
def parseVal (fuel : Nat) (cs : List Char) : Option (JVal × List Char) :=
  match fuel with
  | 0 => none
  | fuel + 1 =>
    match skipWs cs with
    | 'n' :: 'u' :: 'l' :: 'l' :: rest => some (.vnull, rest)
    | 't' :: 'r' :: 'u' :: 'e' :: rest => some (.vbool true, rest)
    | 'f' :: 'a' :: 'l' :: 's' :: 'e' :: rest => some (.vbool false, rest)
    | '"' :: rest =>
      match parseStringBody rest "" with
      | some (s, rest2) => some (.vstr s, rest2)
      | none => none
    | '[' :: rest =>
      match skipWs rest with
      | ']' :: rest2 => some (.varr [], rest2)
      | _ => parseArrItems fuel rest []
    | '\x7b' :: rest =>
      match skipWs rest with
      | '\x7d' :: rest2 => some (.vobj [], rest2)
      | _ => parseObjItems fuel rest []
    | cs2 =>
      match parseNum cs2 with
      | some (n, rest) => some (.vnum n, rest)
      | none => none

/-- Comma-separated items of a JSON array (after the opening bracket). -/
def parseArrItems (fuel : Nat) (cs : List Char) (acc : List JVal) : Option (JVal × List Char) :=
  match fuel with
  | 0 => none
  | fuel + 1 =>
    match parseVal fuel cs with
    | none => none
    | some (v, rest) =>
      match skipWs rest with
      | ',' :: rest2 => parseArrItems fuel rest2 (acc ++ [v])
      | ']' :: rest2 => some (.varr (acc ++ [v]), rest2)
      | _ => none

/-- Comma-separated `"key": value` members of a JSON object (after the opening
brace). -/
def parseObjItems (fuel : Nat) (cs : List Char) (acc : List (String × JVal)) :
    Option (JVal × List Char) :=
  match fuel with
  | 0 => none
  | fuel + 1 =>
    match skipWs cs with
    | '"' :: rest =>
      match parseStringBody rest "" with
      | none => none
      | some (k, rest2) =>
        match skipWs rest2 with
        | ':' :: rest3 =>
          match parseVal fuel rest3 with
          | none => none
          | some (v, rest4) =>
            match skipWs rest4 with
            | ',' :: rest5 => parseObjItems fuel rest5 (objInsert acc k v)
            | '\x7d' :: rest5 => some (.vobj (objInsert acc k v), rest5)
            | _ => none
        | _ => none
    | _ => none

end

/-- Model of `JSON.parse`: parse of the whole string, `none` when `JSON.parse`
would throw a `SyntaxError`. -/
def jsonParse (s : String) : Option JVal :=
  match parseVal (2 * s.length + 8) s.data with
  | some (v, rest) => if (skipWs rest).isEmpty then some v else none
  | none => none

/-! ### Model of the redis store behind `RedisCache`

The redis client itself is an external collaborator; it is modelled as a
partial map from keys to stored strings, each remembering the EX
(expiry-seconds) argument passed at write time, `none` when the entry was
written without expiry. -/

/-- Entry as held by the modelled redis store: the stored string and the EX
expiry-seconds argument recorded at write time (`none` when written without
expiry). -/
structure StoredEntry where
  content : String
  ex : Option Int
  deriving Repr, DecidableEq

/-- Modelled redis store: a partial map from keys to entries. -/
def Store := String → Option StoredEntry

/-- Store with no entries. -/
def emptyStore : Store := fun _ => none

/-- Model of a successful `client.get(key)` round trip: the stored string, or
`null` (here `none`) when the key is absent. -/
def storeGet (st : Store) (k : String) : Option StoredEntry := st k

/-- Model of a successful `client.set(key, s)` / `client.set(key, s, EX ttl)`. -/
def storeSet (st : Store) (k : String) (s : String) (e : Option Int) : Store :=
  fun q => if q = k then some ⟨s, e⟩ else st q

/-- Model of a successful `client.del(key)`. -/
def storeDel (st : Store) (k : String) : Store :=
  fun q => if q = k then none else st q

/-- TTL argument of `RedisCache.set`: a number of seconds, or `false`
("lives forever"). -/
inductive Ttl where
  | forever
  | ex (seconds : Int)
  deriving Repr, DecidableEq

/-- Try-block of `RedisCache.get` (src/unnamed/part_003 lines 193-200), before
the surrounding catch: `client.get` may reject (modelled by `getOk = false`),
a non-string (absent) reply falls through, and `JSON.parse` may throw.
`Except.error` is everything the catch will swallow; `Except.ok none` is the
fall-through to `return defaultValue`. -/
def cacheGetBody (st : Store) (getOk : Bool) (k : String) : Except JSError (Option JVal) :=
  if getOk then
    match storeGet st k with
    | some entry =>
      match jsonParse entry.content with
      | some v => .ok (some v)
      | none => .error (.mk "Unexpected token in JSON" none)
    | none => .ok none
  else .error (.mk "redis client operation failed" none)

/-- Embedding of `RedisCache.get(key, defaultValue?)` (src/unnamed/part_003
lines 191-204): the catch maps every failure of the try-block to
`defaultValue`; an omitted default is `undefined`. -/
def cacheGet (st : Store) (getOk : Bool) (k : String)
    (defaultValue : JVal := .vundefined) : JVal :=
  match cacheGetBody st getOk k with
  | .ok (some v) => v
  | .ok none => defaultValue
  | .error _ => defaultValue

/-- Embedding of `RedisCache.set(key, value, ttl = 3600)` (src/unnamed/part_003
lines 234-257): a nil value deletes the key, otherwise the JSON-serialized
value is stored, with the EX option exactly when `ttl` is not `false`;
`opOk = false` models the underlying client operation rejecting, which the
catch converts to the return value `false` (store unchanged).  Returns the new
store and the reported boolean.  The `none` branch of the stringify match is
unreachable: after the nil guard the value is never `undefined`
(`stringifyVal_isSome_of_not_nil`). -/
def cacheSet (st : Store) (opOk : Bool) (k : String) (v : JVal)
    (ttl : Ttl := .ex 3600) : Store × Bool :=
  if opOk then
    if v.isNilJS then (storeDel st k, true)
    else
      match stringifyVal v with
      | some s =>
        match ttl with
        | .forever => (storeSet st k s none, true)
        | .ex n => (storeSet st k s (some n), true)
      | none => (st, false)
  else (st, false)

/-! ### Model of `createRedisCacheFetcher`

Embeds the current version of src/unnamed/part_001 (the one exposing the
extended `fetch` variant).  One invocation is a pure function of:

* the configuration fixed at construction time (`FetcherConfig`),
* the captured state `lastValue : Option JVal` (`none` embeds the
  `NOT_INITIALIZED_YET` sentinel),
* `now` (epoch milliseconds captured at the start of the call),
* the result of `redis.get(key, NOT_FOUND)` (`CacheGetResult`; the `NOT_FOUND`
  sentinel default collapses "absent", "store failure" and "unparsable" —
  `RedisCache.get` never throws),
* the producer's behaviour on this call (`Except JSError JVal`: a resolved
  value or a thrown error), and
* the boolean `redis.set` would report for the envelope write (`setOk`;
  `RedisCache.set` never throws).
-/

/-- Status enumeration `RedisCacheFetcherValueStatus`. -/
inductive ValueStatus where
  | NoValueAvailable
  | Cached
  | UpToDate
  deriving Repr, DecidableEq

/-- Result of `redis.get(key, NOT_FOUND)` as seen by the fetcher: the
`NOT_FOUND` sentinel, or a parsed JSON value. -/
inductive CacheGetResult where
  | notFound
  | found (v : JVal)

/-- Configuration of a fetcher after the option normalization in
`createRedisCacheFetcher` (src/unnamed/part_001 lines 162-178):
`autoUpdateAfter` is the resolved interval in milliseconds (`none` embeds
`null`, auto-update disabled), `ttl` the resolved cache TTL. -/
structure FetcherConfig where
  autoUpdateAfter : Option Int
  ttl : Ttl

/-- Normalization of `options.autoUpdateAfter` (src/unnamed/part_001 lines
169-178): an omitted option (`none`) defaults to one hour in milliseconds; an
explicit number `n` (seconds) becomes `n * 1000` milliseconds; an explicit
non-number (`some none`, i.e. `null`) disables auto-update. -/
def mkAutoUpdateAfter : Option (Option Int) → Option Int
  | none => some (3600 * 1000)
  | some none => none
  | some (some n) => some (n * 1000)

/-- Normalization of `options.ttl` (src/unnamed/part_001 lines 164-167): a nil
option defaults to `false` ("forever"). -/
def mkTtl : Option Ttl → Ttl
  | none => .forever
  | some t => t

/-- Configuration resulting from omitted options. -/
def defaultConfig : FetcherConfig :=
  { autoUpdateAfter := mkAutoUpdateAfter none, ttl := mkTtl none }

/-- Observable outcome of one invocation of the inner `fetch` closure:
the state `lastValue` after the call, the `errorToThrow` local, the
`valueStatus` local (as assigned, before the getter's sentinel check), whether
the producer was invoked, the envelope-and-TTL handed to `redis.set` when a
write happened, and the boolean that write reported (discarded by the code). -/
structure FetchOutcome where
  newLast : Option JVal
  errorToThrow : Option JSError
  valueStatusRaw : ValueStatus
  producerCalled : Bool
  cacheWrite : Option (JVal × Ttl)
  setResult : Option Bool

/-- Envelope `{ updateAfter, value }` built by `refetch` (src/unnamed/part_001
lines 193-198). -/
def envelopeFor (cfg : FetcherConfig) (now : Int) (v : JVal) : JVal :=
  .vobj [("updateAfter",
          match cfg.autoUpdateAfter with
          | some d => .vnum (now + d)
          | none => .vnull),
         ("value", v)]

/-- One run of the inner `refetch` closure (src/unnamed/part_001 lines
188-206) together with the enclosing catch (lines 230-236): on producer
success the new value is adopted, the status becomes `UpToDate` and the
envelope is written (the write's boolean is awaited and discarded); on a
producer throw the state is untouched and the catch records the error exactly
when `lastValue` is still the `NOT_INITIALIZED_YET` sentinel. -/
def runRefetch (cfg : FetcherConfig) (now : Int) (producer : Except JSError JVal)
    (setOk : Bool) (stBefore : Option JVal) (statusBefore : ValueStatus) : FetchOutcome :=
  match producer with
  | .ok v =>
    { newLast := some v
      errorToThrow := none
      valueStatusRaw := .UpToDate
      producerCalled := true
      cacheWrite := some (envelopeFor cfg now v, cfg.ttl)
      setResult := some setOk }
  | .error e =>
    { newLast := stBefore
      errorToThrow := if stBefore.isNone then some e else none
      valueStatusRaw := statusBefore
      producerCalled := true
      cacheWrite := none
      setResult := none }

/-- One invocation of the inner `fetch` closure (src/unnamed/part_001 lines
181-236): on a `NOT_FOUND` read, refetch; on a truthy-object hit, adopt the
entry's `value` field and refetch only when `updateAfter` is a number smaller
than `now`; on any other hit ("no valid object here anymore"), refetch. -/
def fetchStep (cfg : FetcherConfig) (st : Option JVal) (now : Int)
    (cached : CacheGetResult) (producer : Except JSError JVal) (setOk : Bool) : FetchOutcome :=
  match cached with
  | .notFound => runRefetch cfg now producer setOk st .Cached
  | .found cv =>
    if cv.isTruthyObject then
      match cv.getField "updateAfter" with
      | .vnum t =>
        if now > t then
          runRefetch cfg now producer setOk (some (cv.getField "value")) .Cached
        else
          { newLast := some (cv.getField "value")
            errorToThrow := none
            valueStatusRaw := .Cached
            producerCalled := false
            cacheWrite := none
            setResult := none }
      | _ =>
          { newLast := some (cv.getField "value")
            errorToThrow := none
            valueStatusRaw := .Cached
            producerCalled := false
            cacheWrite := none
            setResult := none }
    else runRefetch cfg now producer setOk st .Cached

/-- Getter of `result.value` (src/unnamed/part_001 lines 256-268): access
throws an `Error` with message "No data available yet!" and
`cause: errorToThrow ?? undefined` while the captured value is still the
`NOT_INITIALIZED_YET` sentinel, and yields the captured value otherwise. -/
def fetchResultValue (o : FetchOutcome) : Except JSError JVal :=
  match o.newLast with
  | none => .error (.mk "No data available yet!" o.errorToThrow)
  | some v => .ok v

/-- Getter of `result.valueStatus` (src/unnamed/part_001 lines 271-279):
`NoValueAvailable` while the captured value is still the sentinel, the
`valueStatus` local otherwise. -/
def fetchValueStatus (o : FetchOutcome) : ValueStatus :=
  if o.newLast.isNone then .NoValueAvailable else o.valueStatusRaw

/-- One invocation of the plain wrapped function `newFetcher`
(src/unnamed/part_001 lines 284-295): it destructures the descriptor of the
extended call, which invokes the `value` getter — so a getter throw propagates
out of the destructuring.  Otherwise, a truthy `errorToThrow` would reach
`throw new errorToThrow` (calling `new` on an Error instance, a `TypeError`);
that branch is unreachable (`errorToThrow_isSome_iff`). -/
def newFetcherCall (cfg : FetcherConfig) (st : Option JVal) (now : Int)
    (cached : CacheGetResult) (producer : Except JSError JVal) (setOk : Bool) :
    Except JSError JVal :=
  let o := fetchStep cfg st now cached producer setOk
  match fetchResultValue o with
  | .error e => .error e
  | .ok v =>
    match o.errorToThrow with
    | some _ => .error (.mk "errorToThrow is not a constructor" none)
    | none => .ok v

/-- Read of `redis.get(key, NOT_FOUND)` as performed by the fetcher, expressed
through the embedded `RedisCache.get` try-block: absent entry, failed store
operation and unparsable payload all collapse to the `NOT_FOUND` default. -/
def fetcherCacheRead (st : Store) (getOk : Bool) (k : String) : CacheGetResult :=
  match cacheGetBody st getOk k with
  | .ok (some v) => .found v
  | .ok none => .notFound
  | .error _ => .notFound

/-- Embedding of `newFetcher.reset()` (src/unnamed/part_001 lines 301-309):
`redis.set(key, null)` (deleting the entry; the TTL argument is the omitted
default), then the state is cleared only when that reported success; the flag
is returned.  Result: new store, new `lastValue`, returned flag. -/
def fetcherReset (store : Store) (opOk : Bool) (k : String) (st : Option JVal) :
    Store × Option JVal × Bool :=
  let r := cacheSet store opOk k .vnull
  (r.1, if r.2 then none else st, r.2)

/-- Full single invocation against a concrete store: read through
`fetcherCacheRead`, run `fetchStep`, apply the envelope write (if any) to the
store through the embedded `RedisCache.set`. -/
def fetchInvoke (cfg : FetcherConfig) (store : Store) (getOk setOk : Bool)
    (k : String) (st : Option JVal) (now : Int) (producer : Except JSError JVal) :
    FetchOutcome × Store :=
  let o := fetchStep cfg st now (fetcherCacheRead store getOk k) producer setOk
  match o.cacheWrite with
  | some (env, ttl) => (o, (cacheSet store setOk k env ttl).1)
  | none => (o, store)

/-! ### Specification-side predicates

These follow the spec's wording (they are not source translations); the
theorems below compare the source-derived `fetchStep` against them. -/

/-- Usable cache entry in the sense of the spec's hit/miss split: a read that
produced a truthy object. -/
def usableEnvelope : CacheGetResult → Bool
  | .notFound => false
  | .found v => v.isTruthyObject

/-- Staleness test of the spec: the adopted entry carries a numeric
`updateAfter` strictly below the captured `now`. -/
def staleAt (now : Int) (cv : JVal) : Bool :=
  match cv.getField "updateAfter" with
  | .vnum t => decide (now > t)
  | _ => false

/-- Condition under which one invocation runs the producer (amended claim C4):
a non-usable read, or a usable one whose entry is stale. -/
def refetchCondition (now : Int) : CacheGetResult → Bool
  | .notFound => true
  | .found cv => if cv.isTruthyObject then staleAt now cv else true

/-!
### Theorems
-/

/-- Auxiliary: the catch of the fetcher records `errorToThrow` exactly in those
runs that end with `lastValue` still at the `NOT_INITIALIZED_YET` sentinel
(every non-throwing path assigns `lastValue`, and the producer throws before
`refetch` assigns it). -/
theorem errorToThrow_isSome_iff (cfg : FetcherConfig) (st : Option JVal) (now : Int)
    (cached : CacheGetResult) (producer : Except JSError JVal) (setOk : Bool) :
    (fetchStep cfg st now cached producer setOk).errorToThrow.isSome
      = (fetchStep cfg st now cached producer setOk).newLast.isNone := by
  cases cached with
  | notFound =>
    cases producer with
    | ok v => simp [fetchStep, runRefetch]
    | error e => cases st <;> simp [fetchStep, runRefetch]
  | found cv =>
    by_cases htr : cv.isTruthyObject = true
    · cases hua : cv.getField "updateAfter" with
      | vnum t =>
        by_cases hst : now > t
        · cases producer with
          | ok v => simp [fetchStep, htr, hua, hst, runRefetch]
          | error e => simp [fetchStep, htr, hua, hst, runRefetch]
        · simp [fetchStep, htr, hua, hst]
      | vundefined => simp [fetchStep, htr, hua]
      | vnull => simp [fetchStep, htr, hua]
      | vbool b => simp [fetchStep, htr, hua]
      | vstr s => simp [fetchStep, htr, hua]
      | varr es => simp [fetchStep, htr, hua]
      | vobj fs => simp [fetchStep, htr, hua]
    · rw [Bool.not_eq_true] at htr
      cases producer with
      | ok v => simp [fetchStep, htr, runRefetch]
      | error e => cases st <;> simp [fetchStep, htr, runRefetch]

/-- C1: while `lastGoodValue` is still uninitialized and the cache read gives
no usable entry, a plain fetcher call whose producer throws itself raises the
"No data available yet!" error carrying the producer's error as its `cause`
(it does not return a value). -/
theorem claim_C1 (cfg : FetcherConfig) (now : Int) (cached : CacheGetResult)
    (e : JSError) (setOk : Bool) (hmiss : usableEnvelope cached = false) :
    newFetcherCall cfg none now cached (.error e) setOk
      = .error (.mk "No data available yet!" (some e)) := by
  cases cached with
  | notFound =>
    simp [newFetcherCall, fetchStep, runRefetch, fetchResultValue]
  | found cv =>
    simp only [usableEnvelope] at hmiss
    simp [newFetcherCall, fetchStep, hmiss, runRefetch, fetchResultValue]

/-- Witness for C1 at a concrete cold start with a failing producer. -/
theorem claim_C1_witness :
    usableEnvelope .notFound = false ∧
    newFetcherCall defaultConfig none 0 .notFound (.error (.mk "boom" none)) true
      = .error (.mk "No data available yet!" (some (.mk "boom" none))) :=
  ⟨rfl, claim_C1 defaultConfig 0 .notFound (.mk "boom" none) true rfl⟩

/-- C6: `RedisCache.get` never raises; an absent key, a failed store
operation, or an unparsable stored string all yield the supplied default
(`undefined` when omitted), and a stored string that parses yields the parsed
value. -/
theorem claim_C6 (st : Store) (getOk : Bool) (k : String) (d : JVal) :
    (getOk = false → cacheGet st getOk k d = d)
  ∧ (storeGet st k = none → cacheGet st true k d = d)
  ∧ (∀ s e, storeGet st k = some ⟨s, e⟩ → jsonParse s = none → cacheGet st true k d = d)
  ∧ (∀ s e v, storeGet st k = some ⟨s, e⟩ → jsonParse s = some v → cacheGet st true k d = v)
  ∧ cacheGet st getOk k = cacheGet st getOk k .vundefined := by
  refine ⟨?_, ?_, ?_, ?_, rfl⟩
  · rintro rfl
    simp [cacheGet, cacheGetBody]
  · intro h
    simp [cacheGet, cacheGetBody, h]
  · intro s e hs hp
    simp [cacheGet, cacheGetBody, hs, hp]
  · intro s e v hs hp
    simp [cacheGet, cacheGetBody, hs, hp]

/-- Witness for C6 at a concrete store: a parsable entry is returned, a failed
operation falls back to the default. -/
theorem claim_C6_witness :
    cacheGet (storeSet emptyStore "k" "42" none) true "k" (.vstr "d") = .vnum 42 ∧
    cacheGet (storeSet emptyStore "k" "42" none) false "k" (.vstr "d") = .vstr "d" :=
  ⟨(claim_C6 (storeSet emptyStore "k" "42" none) true "k" (.vstr "d")).2.2.2.1
      "42" none (.vnum 42) rfl rfl,
   (claim_C6 (storeSet emptyStore "k" "42" none) false "k" (.vstr "d")).1 rfl⟩

/-- Counterexample to C7 as stated: `v = null` survives a JSON round-trip
(`JSON.parse(JSON.stringify(null))` is `null`, deeply equal to `v`), and
`set(k, null)` reports success, yet the subsequent `get(k)` returns
`undefined`, not a value deeply equal to `null` — because a nil value makes
`set` delete the key instead of storing it. -/
theorem claim_C7_counterexample :
    stringifyVal JVal.vnull = some "null"
  ∧ jsonParse "null" = some JVal.vnull
  ∧ (cacheSet emptyStore true "k" .vnull).2 = true
  ∧ cacheGet (cacheSet emptyStore true "k" .vnull).1 true "k" = JVal.vundefined
  ∧ JVal.vundefined ≠ JVal.vnull :=
  ⟨rfl, rfl, rfl, rfl, fun h => JVal.noConfusion h⟩

/-- C7 (amended): for every non-nil value `v` that survives a JSON round-trip,
a successful `set(k, v)` followed by `get(k)` on an unfailing store returns a
value deeply equal to `v` (nil values instead delete the key, see the
counterexample). -/
theorem claim_C7 (st : Store) (k : String) (v : JVal) (ttl : Ttl) (s : String) (w : JVal)
    (hnil : v.isNilJS = false) (hs : stringifyVal v = some s)
    (hp : jsonParse s = some w) (hrt : w = v) :
    (cacheSet st true k v ttl).2 = true ∧
    cacheGet (cacheSet st true k v ttl).1 true k = v := by
  subst hrt
  constructor
  · cases ttl <;> simp [cacheSet, hnil, hs]
  · cases ttl <;>
      simp [cacheSet, hnil, hs, cacheGet, cacheGetBody, storeGet, storeSet, hp]

/-- Witness for C7 at `v = 5`: the round-trip holds and `get` returns `5`. -/
theorem claim_C7_witness :
    (cacheSet emptyStore true "k" (.vnum 5) (.ex 3600)).2 = true ∧
    cacheGet (cacheSet emptyStore true "k" (.vnum 5) (.ex 3600)).1 true "k" = .vnum 5 :=
  claim_C7 emptyStore "k" (.vnum 5) (.ex 3600) "5" (.vnum 5) rfl rfl rfl rfl

/-- C8: `RedisCache.set` deletes the key on a nil value (so a following
`get(k, d)` yields `d`), otherwise stores the JSON serialization — without
expiry for `ttl = false` and with the EX expiry-seconds argument `n` for
`ttl = n`, the omitted-argument default being 3600 — and reports `true`
exactly when the underlying operation succeeded, never raising. -/
theorem claim_C8 (st : Store) (opOk : Bool) (k : String) (v : JVal) (ttl : Ttl) (d : JVal) :
    (v.isNilJS = true → cacheSet st opOk k v ttl = (if opOk then storeDel st k else st, opOk))
  ∧ (v.isNilJS = true → cacheGet (cacheSet st true k v ttl).1 true k d = d)
  ∧ (∀ s, v.isNilJS = false → stringifyVal v = some s →
      cacheSet st true k v .forever = (storeSet st k s none, true))
  ∧ (∀ s n, v.isNilJS = false → stringifyVal v = some s →
      cacheSet st true k v (.ex n) = (storeSet st k s (some n), true))
  ∧ (opOk = false → cacheSet st opOk k v ttl = (st, false))
  ∧ cacheSet st opOk k v = cacheSet st opOk k v (.ex 3600) := by
  refine ⟨?_, ?_, ?_, ?_, ?_, rfl⟩
  · intro hnil
    cases opOk <;> simp [cacheSet, hnil]
  · intro hnil
    simp [cacheSet, hnil, cacheGet, cacheGetBody, storeGet, storeDel]
  · intro s hnil hs
    simp [cacheSet, hnil, hs]
  · intro s n hnil hs
    simp [cacheSet, hnil, hs]
  · rintro rfl
    simp [cacheSet]

/-- Witness for C8: deleting via `null` makes the next `get` yield the
default, and a plain store with `ttl = 9` records EX 9 and reports success. -/
theorem claim_C8_witness :
    cacheGet (cacheSet emptyStore true "k" .vnull (.ex 3600)).1 true "k" (.vstr "d") = .vstr "d"
  ∧ cacheSet emptyStore true "k" (.vnum 7) (.ex 9) = (storeSet emptyStore "k" "7" (some 9), true) :=
  ⟨(claim_C8 emptyStore true "k" .vnull (.ex 3600) (.vstr "d")).2.1 rfl,
   (claim_C8 emptyStore true "k" (.vnum 7) (.ex 9) (.vstr "d")).2.2.2.1 "7" 9 rfl rfl⟩

/-- Auxiliary: once `lastValue` holds a value, a plain fetcher call cannot
raise, whatever the cache read and the producer do. -/
theorem newFetcherCall_isOk_of_initialized (cfg : FetcherConfig) (v0 : JVal) (now : Int)
    (cached : CacheGetResult) (producer : Except JSError JVal) (setOk : Bool) :
    (newFetcherCall cfg (some v0) now cached producer setOk).isOk = true := by
  cases cached with
  | notFound =>
    cases producer with
    | ok v => simp [newFetcherCall, fetchStep, runRefetch, fetchResultValue, Except.isOk, Except.toBool]
    | error e => simp [newFetcherCall, fetchStep, runRefetch, fetchResultValue, Except.isOk, Except.toBool]
  | found cv =>
    by_cases htr : cv.isTruthyObject = true
    · cases hua : cv.getField "updateAfter" with
      | vnum t =>
        by_cases hst : now > t
        · cases producer with
          | ok v => simp [newFetcherCall, fetchStep, htr, hua, hst, runRefetch, fetchResultValue, Except.isOk, Except.toBool]
          | error e => simp [newFetcherCall, fetchStep, htr, hua, hst, runRefetch, fetchResultValue, Except.isOk, Except.toBool]
        · simp [newFetcherCall, fetchStep, htr, hua, hst, fetchResultValue, Except.isOk, Except.toBool]
      | vundefined => simp [newFetcherCall, fetchStep, htr, hua, fetchResultValue, Except.isOk, Except.toBool]
      | vnull => simp [newFetcherCall, fetchStep, htr, hua, fetchResultValue, Except.isOk, Except.toBool]
      | vbool b => simp [newFetcherCall, fetchStep, htr, hua, fetchResultValue, Except.isOk, Except.toBool]
      | vstr s => simp [newFetcherCall, fetchStep, htr, hua, fetchResultValue, Except.isOk, Except.toBool]
      | varr es => simp [newFetcherCall, fetchStep, htr, hua, fetchResultValue, Except.isOk, Except.toBool]
      | vobj fs => simp [newFetcherCall, fetchStep, htr, hua, fetchResultValue, Except.isOk, Except.toBool]
    · rw [Bool.not_eq_true] at htr
      cases producer with
      | ok v => simp [newFetcherCall, fetchStep, htr, runRefetch, fetchResultValue, Except.isOk, Except.toBool]
      | error e => simp [newFetcherCall, fetchStep, htr, runRefetch, fetchResultValue, Except.isOk, Except.toBool]

/-- C2: after a first cold invocation that succeeded with `v`, a second
invocation whose producer throws returns `v` without raising — both when the
cache entry was lost and when it is stale — and the extended variant reports
`Cached`; more generally a producer failure surfaces only while
`lastGoodValue` is still uninitialized (no producer success since
construction or the last successful reset). -/
theorem claim_C2 (cfg : FetcherConfig) (v : JVal) (e : JSError) (now1 now2 t : Int)
    (setOk1 setOk2 : Bool) :
    newFetcherCall cfg none now1 .notFound (.ok v) setOk1 = .ok v
  ∧ (fetchStep cfg none now1 .notFound (.ok v) setOk1).newLast = some v
  ∧ newFetcherCall cfg (some v) now2 .notFound (.error e) setOk2 = .ok v
  ∧ fetchValueStatus (fetchStep cfg (some v) now2 .notFound (.error e) setOk2) = .Cached
  ∧ (now2 > t →
      newFetcherCall cfg (some v) now2
          (.found (.vobj [("updateAfter", .vnum t), ("value", v)])) (.error e) setOk2 = .ok v
      ∧ fetchValueStatus (fetchStep cfg (some v) now2
          (.found (.vobj [("updateAfter", .vnum t), ("value", v)])) (.error e) setOk2) = .Cached)
  ∧ (∀ (st0 : Option JVal) (cached : CacheGetResult) (producer : Except JSError JVal)
        (setOk : Bool), st0 ≠ none →
      (newFetcherCall cfg st0 now2 cached producer setOk).isOk = true) := by
  refine ⟨?_, ?_, ?_, ?_, ?_, ?_⟩
  · simp [newFetcherCall, fetchStep, runRefetch, fetchResultValue]
  · simp [fetchStep, runRefetch]
  · simp [newFetcherCall, fetchStep, runRefetch, fetchResultValue]
  · simp [fetchStep, runRefetch, fetchValueStatus]
  · intro hgt
    have hua : (JVal.vobj [("updateAfter", JVal.vnum t), ("value", v)]).getField "updateAfter"
        = JVal.vnum t := rfl
    have hval : (JVal.vobj [("updateAfter", JVal.vnum t), ("value", v)]).getField "value"
        = v := rfl
    constructor
    · simp [newFetcherCall, fetchStep, JVal.isTruthyObject, hua, hval, hgt,
        runRefetch, fetchResultValue]
    · simp [fetchStep, JVal.isTruthyObject, hua, hval, hgt, runRefetch, fetchValueStatus]
  · intro st0 cached producer setOk hne
    cases st0 with
    | none => exact absurd rfl hne
    | some v0 => exact newFetcherCall_isOk_of_initialized cfg v0 now2 cached producer setOk

/-- Witness for C2 at concrete values, including the stale-entry case. -/
theorem claim_C2_witness :
    newFetcherCall defaultConfig none 0 .notFound (.ok (.vnum 7)) true = .ok (.vnum 7)
  ∧ newFetcherCall defaultConfig (some (.vnum 7)) 1
      (.found (.vobj [("updateAfter", .vnum 0), ("value", .vnum 7)]))
      (.error (.mk "boom" none)) true = .ok (.vnum 7) :=
  ⟨(claim_C2 defaultConfig (.vnum 7) (.mk "boom" none) 0 1 0 true true).1,
   ((claim_C2 defaultConfig (.vnum 7) (.mk "boom" none) 0 1 0 true true).2.2.2.2.1
      (by decide)).1⟩

/-- Counterexample to C3 as stated: on a fresh fetcher (no producer call has
ever succeeded) whose cache read yields a valid never-refreshing envelope, the
producer is not even invoked (and so never succeeds), yet the descriptor has
`errorToThrow` unset and `valueStatus = Cached` — not `NoValueAvailable` — so
"errorToThrow is set exactly when no producer call has ever succeeded" fails:
the descriptor instead tracks whether a value (possibly adopted from the
cache) has ever been obtained. -/
theorem claim_C3_counterexample :
    (fetchStep defaultConfig none 0
        (.found (.vobj [("updateAfter", .vnull), ("value", .vnum 42)]))
        (.error (.mk "boom" none)) true).producerCalled = false
  ∧ (fetchStep defaultConfig none 0
        (.found (.vobj [("updateAfter", .vnull), ("value", .vnum 42)]))
        (.error (.mk "boom" none)) true).errorToThrow = none
  ∧ fetchValueStatus (fetchStep defaultConfig none 0
        (.found (.vobj [("updateAfter", .vnull), ("value", .vnum 42)]))
        (.error (.mk "boom" none)) true) = .Cached
  ∧ fetchResultValue (fetchStep defaultConfig none 0
        (.found (.vobj [("updateAfter", .vnull), ("value", .vnum 42)]))
        (.error (.mk "boom" none)) true) = .ok (.vnum 42) :=
  ⟨rfl, rfl, rfl, rfl⟩

/-- C3 (amended): the extended `fetch` variant never raises (it is a total
function into a descriptor); `errorToThrow` is set exactly when no value has
ever been obtained — neither a producer success nor a cache adoption since
construction or the last successful reset, i.e. exactly when `lastGoodValue`
is still uninitialized after the call; `valueStatus` is `NoValueAvailable`
exactly in that case; and accessing `value` raises exactly in that case, with
the producer's error as the cause, while otherwise it yields the last good
value. -/
theorem claim_C3 (cfg : FetcherConfig) (st : Option JVal) (now : Int)
    (cached : CacheGetResult) (producer : Except JSError JVal) (setOk : Bool)
    (o : FetchOutcome) (ho : o = fetchStep cfg st now cached producer setOk) :
    (o.errorToThrow.isSome = o.newLast.isNone)
  ∧ (fetchValueStatus o = .NoValueAvailable ↔ o.newLast = none)
  ∧ (∀ e, o.errorToThrow = some e →
      fetchResultValue o = .error (.mk "No data available yet!" (some e)))
  ∧ (∀ w, o.newLast = some w → fetchResultValue o = .ok w) := by
  subst ho
  cases cached with
  | notFound =>
    cases producer with
    | ok v =>
      simp [fetchStep, runRefetch, fetchResultValue, fetchValueStatus]
    | error e =>
      cases st <;>
        simp [fetchStep, runRefetch, fetchResultValue, fetchValueStatus]
  | found cv =>
    by_cases htr : cv.isTruthyObject = true
    · cases hua : cv.getField "updateAfter" with
      | vnum t =>
        by_cases hst : now > t
        · cases producer with
          | ok v =>
            simp [fetchStep, htr, hua, hst, runRefetch, fetchResultValue, fetchValueStatus]
          | error e =>
            simp [fetchStep, htr, hua, hst, runRefetch, fetchResultValue, fetchValueStatus]
        · simp [fetchStep, htr, hua, hst, fetchResultValue, fetchValueStatus]
      | vundefined => simp [fetchStep, htr, hua, fetchResultValue, fetchValueStatus]
      | vnull => simp [fetchStep, htr, hua, fetchResultValue, fetchValueStatus]
      | vbool b => simp [fetchStep, htr, hua, fetchResultValue, fetchValueStatus]
      | vstr s => simp [fetchStep, htr, hua, fetchResultValue, fetchValueStatus]
      | varr es => simp [fetchStep, htr, hua, fetchResultValue, fetchValueStatus]
      | vobj fs => simp [fetchStep, htr, hua, fetchResultValue, fetchValueStatus]
    · rw [Bool.not_eq_true] at htr
      cases producer with
      | ok v =>
        simp [fetchStep, htr, runRefetch, fetchResultValue, fetchValueStatus]
      | error e =>
        cases st <;>
          simp [fetchStep, htr, runRefetch, fetchResultValue, fetchValueStatus]

/-- Witness for C3 at a concrete cold start whose producer throws. -/
theorem claim_C3_witness :
    fetchResultValue (fetchStep defaultConfig none 0 .notFound
        (.error (.mk "boom" none)) true)
      = .error (.mk "No data available yet!" (some (.mk "boom" none))) :=
  (claim_C3 defaultConfig none 0 .notFound (.error (.mk "boom" none)) true
      (fetchStep defaultConfig none 0 .notFound (.error (.mk "boom" none)) true)
      rfl).2.2.1 (.mk "boom" none) rfl

/-- Counterexample to C4 as stated: a stored entry that parses to an object
lacking a `value` field (here the stored string of the empty object) does not
count as a miss — the producer is not run; the fetcher instead adopts the
object's absent `value` field, i.e. `undefined`, as the value. -/
theorem claim_C4_counterexample :
    fetcherCacheRead (storeSet emptyStore "k" "\x7b\x7d" none) true "k" = .found (.vobj [])
  ∧ (JVal.vobj []).getField "value" = .vundefined
  ∧ (fetchStep defaultConfig none 0 (.found (.vobj [])) (.ok (.vnum 1)) true).producerCalled
      = false
  ∧ (fetchStep defaultConfig none 0 (.found (.vobj [])) (.ok (.vnum 1)) true).newLast
      = some .vundefined :=
  ⟨rfl, rfl, rfl, rfl⟩

/-- C4 (amended): the producer is run unconditionally exactly when the cache
lookup returns the absent marker or the stored entry is not a truthy object
(e.g. `null` or a primitive); an entry that parses to an object — even one
lacking a `value` field — counts as a hit whose (possibly `undefined`) `value`
field is adopted, and triggers the producer only under the `updateAfter`
staleness rule. -/
theorem claim_C4 (cfg : FetcherConfig) (st : Option JVal) (now : Int)
    (cached : CacheGetResult) (producer : Except JSError JVal) (setOk : Bool)
    (o : FetchOutcome) (ho : o = fetchStep cfg st now cached producer setOk) :
    o.producerCalled = refetchCondition now cached
  ∧ (usableEnvelope cached = false → o.producerCalled = true)
  ∧ (∀ cv, cached = .found cv → cv.isTruthyObject = true → staleAt now cv = false →
      o.producerCalled = false ∧ o.newLast = some (cv.getField "value")) := by
  subst ho
  refine ⟨?_, ?_, ?_⟩
  · cases cached with
    | notFound =>
      cases producer <;> simp [fetchStep, runRefetch, refetchCondition]
    | found cv =>
      by_cases htr : cv.isTruthyObject = true
      · cases hua : cv.getField "updateAfter" with
        | vnum t =>
          by_cases hst : now > t
          · cases producer <;>
              simp [fetchStep, htr, hua, hst, runRefetch, refetchCondition, staleAt]
          · simp [fetchStep, htr, hua, hst, refetchCondition, staleAt]
        | vundefined => simp [fetchStep, htr, hua, refetchCondition, staleAt]
        | vnull => simp [fetchStep, htr, hua, refetchCondition, staleAt]
        | vbool b => simp [fetchStep, htr, hua, refetchCondition, staleAt]
        | vstr s => simp [fetchStep, htr, hua, refetchCondition, staleAt]
        | varr es => simp [fetchStep, htr, hua, refetchCondition, staleAt]
        | vobj fs => simp [fetchStep, htr, hua, refetchCondition, staleAt]
      · rw [Bool.not_eq_true] at htr
        cases producer <;>
          simp [fetchStep, htr, runRefetch, refetchCondition]
  · intro hmiss
    cases cached with
    | notFound => cases producer <;> simp [fetchStep, runRefetch]
    | found cv =>
      simp only [usableEnvelope] at hmiss
      cases producer <;> simp [fetchStep, hmiss, runRefetch]
  · rintro cv rfl htr hfresh
    simp only [staleAt] at hfresh
    cases hua : cv.getField "updateAfter" with
    | vnum t =>
      rw [hua] at hfresh
      simp only [decide_eq_false_iff_not] at hfresh
      simp [fetchStep, htr, hua, hfresh]
    | vundefined => simp [fetchStep, htr, hua]
    | vnull => simp [fetchStep, htr, hua]
    | vbool b => simp [fetchStep, htr, hua]
    | vstr s => simp [fetchStep, htr, hua]
    | varr es => simp [fetchStep, htr, hua]
    | vobj fs => simp [fetchStep, htr, hua]

/-- Witness for C4 (amended) at a fresh hit on a valid envelope. -/
theorem claim_C4_witness :
    (fetchStep defaultConfig none 0
        (.found (.vobj [("updateAfter", .vnull), ("value", .vnum 3)]))
        (.ok (.vnum 9)) true).producerCalled = false
  ∧ (fetchStep defaultConfig none 0
        (.found (.vobj [("updateAfter", .vnull), ("value", .vnum 3)]))
        (.ok (.vnum 9)) true).newLast = some (.vnum 3) :=
  (claim_C4 defaultConfig none 0
      (.found (.vobj [("updateAfter", .vnull), ("value", .vnum 3)]))
      (.ok (.vnum 9)) true
      (fetchStep defaultConfig none 0
        (.found (.vobj [("updateAfter", .vnull), ("value", .vnum 3)]))
        (.ok (.vnum 9)) true) rfl).2.2
    (.vobj [("updateAfter", .vnull), ("value", .vnum 3)]) rfl rfl rfl

/-- C5: `reset()` deletes the cache entry via `set(key, null)`, returns that
deletion's success flag, clears `lastGoodValue` back to uninitialized exactly
when the deletion reported success and leaves it (and the store) unchanged on
failure; after a successful reset the next invocation is a cold start and a
failing producer makes the plain call raise. -/
theorem claim_C5 (store : Store) (opOk : Bool) (k : String) (st : Option JVal) :
    (fetcherReset store opOk k st).2.2 = opOk
  ∧ (opOk = true →
      (fetcherReset store opOk k st).2.1 = none
      ∧ (fetcherReset store opOk k st).1 k = none
      ∧ ∀ (cfg : FetcherConfig) (now : Int) (e : JSError) (setOk : Bool),
          newFetcherCall cfg (fetcherReset store opOk k st).2.1 now
              (fetcherCacheRead (fetcherReset store opOk k st).1 true k)
              (.error e) setOk
            = .error (.mk "No data available yet!" (some e)))
  ∧ (opOk = false →
      (fetcherReset store opOk k st).2.1 = st ∧ (fetcherReset store opOk k st).1 = store) := by
  refine ⟨?_, ?_, ?_⟩
  · cases opOk <;> simp [fetcherReset, cacheSet, JVal.isNilJS]
  · rintro rfl
    refine ⟨?_, ?_, ?_⟩
    · simp [fetcherReset, cacheSet, JVal.isNilJS]
    · simp [fetcherReset, cacheSet, JVal.isNilJS, storeDel]
    · intro cfg now e setOk
      have hread : fetcherCacheRead (fetcherReset store true k st).1 true k = .notFound := by
        simp [fetcherReset, cacheSet, JVal.isNilJS, fetcherCacheRead, cacheGetBody,
          storeGet, storeDel]
      rw [hread]
      have hst : (fetcherReset store true k st).2.1 = none := by
        simp [fetcherReset, cacheSet, JVal.isNilJS]
      rw [hst]
      simp [newFetcherCall, fetchStep, runRefetch, fetchResultValue]
  · rintro rfl
    simp [fetcherReset, cacheSet]

/-- Witness for C5 on a store holding an envelope under the key. -/
theorem claim_C5_witness :
    (fetcherReset (storeSet emptyStore "k" "9" none) true "k" (some (.vnum 9))).2.2 = true
  ∧ newFetcherCall defaultConfig
      (fetcherReset (storeSet emptyStore "k" "9" none) true "k" (some (.vnum 9))).2.1 0
      (fetcherCacheRead
        (fetcherReset (storeSet emptyStore "k" "9" none) true "k" (some (.vnum 9))).1 true "k")
      (.error (.mk "boom" none)) true
      = .error (.mk "No data available yet!" (some (.mk "boom" none))) :=
  ⟨(claim_C5 (storeSet emptyStore "k" "9" none) true "k" (some (.vnum 9))).1,
   ((claim_C5 (storeSet emptyStore "k" "9" none) true "k" (some (.vnum 9))).2.1 rfl).2.2
     defaultConfig 0 (.mk "boom" none) true⟩

/-- C9: on a hit whose envelope carries a numeric `updateAfter` below the
captured `now`, the producer is re-invoked; on success the envelope written to
the cache carries `updateAfter = now + autoUpdateAfter-seconds * 1000` (the
omitted-option default being 3600 seconds, and `null` when auto-refresh is
disabled) together with the configured TTL, and the new value is returned
with status `UpToDate`; on failure the previously cached value is still
returned. -/
theorem claim_C9 (optAuto : Option (Option Int)) (optTtl : Option Ttl)
    (st : Option JVal) (now t : Int) (cv : JVal)
    (producer : Except JSError JVal) (setOk : Bool)
    (cfg : FetcherConfig) (hcfg : cfg = ⟨mkAutoUpdateAfter optAuto, mkTtl optTtl⟩)
    (o : FetchOutcome) (ho : o = fetchStep cfg st now (.found cv) producer setOk)
    (htr : cv.isTruthyObject = true) (hua : cv.getField "updateAfter" = .vnum t)
    (hst : now > t) :
    o.producerCalled = true
  ∧ (∀ v, producer = .ok v →
      o.cacheWrite = some (.vobj [("updateAfter",
          (match optAuto with
           | none => JVal.vnum (now + 3600 * 1000)
           | some none => JVal.vnull
           | some (some n) => JVal.vnum (now + n * 1000))),
          ("value", v)], mkTtl optTtl)
      ∧ fetchResultValue o = .ok v
      ∧ fetchValueStatus o = .UpToDate
      ∧ o.newLast = some v)
  ∧ (∀ e, producer = .error e →
      fetchResultValue o = .ok (cv.getField "value") ∧ o.errorToThrow = none) := by
  subst hcfg
  subst ho
  refine ⟨?_, ?_, ?_⟩
  · cases producer <;> simp [fetchStep, htr, hua, hst, runRefetch]
  · rintro v rfl
    refine ⟨?_, ?_, ?_, ?_⟩
    · cases optAuto with
      | none =>
        simp [fetchStep, htr, hua, hst, runRefetch, envelopeFor, mkAutoUpdateAfter]
      | some oa =>
        cases oa <;>
          simp [fetchStep, htr, hua, hst, runRefetch, envelopeFor, mkAutoUpdateAfter]
    · simp [fetchStep, htr, hua, hst, runRefetch, fetchResultValue]
    · simp [fetchStep, htr, hua, hst, runRefetch, fetchValueStatus]
    · simp [fetchStep, htr, hua, hst, runRefetch]
  · rintro e rfl
    refine ⟨?_, ?_⟩
    · simp [fetchStep, htr, hua, hst, runRefetch, fetchResultValue]
    · simp [fetchStep, htr, hua, hst, runRefetch]

/-- Witness for C9 at `autoUpdateAfter = 2` seconds, `ttl = 60`, a stale
envelope and a succeeding producer. -/
theorem claim_C9_witness :
    (fetchStep ⟨mkAutoUpdateAfter (some (some 2)), mkTtl (some (.ex 60))⟩ none 5
        (.found (.vobj [("updateAfter", .vnum 0), ("value", .vnum 1)]))
        (.ok (.vnum 9)) true).cacheWrite
      = some (.vobj [("updateAfter", .vnum 2005), ("value", .vnum 9)], .ex 60) :=
  ((claim_C9 (some (some 2)) (some (.ex 60)) none 5 0
      (.vobj [("updateAfter", .vnum 0), ("value", .vnum 1)])
      (.ok (.vnum 9)) true
      ⟨mkAutoUpdateAfter (some (some 2)), mkTtl (some (.ex 60))⟩ rfl
      (fetchStep ⟨mkAutoUpdateAfter (some (some 2)), mkTtl (some (.ex 60))⟩ none 5
        (.found (.vobj [("updateAfter", .vnum 0), ("value", .vnum 1)]))
        (.ok (.vnum 9)) true) rfl
      rfl rfl (by decide)).2.1 (.vnum 9) rfl).1

/-- C10: whenever this invocation runs the producer and the producer succeeds
with `v`, the state adopts `v` and the caller observes `v` with status
`UpToDate` and no error — for every result the cache write may report
(`setOk` is universally quantified and only recorded, never consulted), so a
failed envelope write never affects the value, status or error observed. -/
theorem claim_C10 (cfg : FetcherConfig) (st : Option JVal) (now : Int)
    (cached : CacheGetResult) (v : JVal) (setOk : Bool)
    (o : FetchOutcome) (ho : o = fetchStep cfg st now cached (.ok v) setOk)
    (hcalled : o.producerCalled = true) :
    o.newLast = some v
  ∧ fetchResultValue o = .ok v
  ∧ fetchValueStatus o = .UpToDate
  ∧ o.errorToThrow = none
  ∧ newFetcherCall cfg st now cached (.ok v) setOk = .ok v
  ∧ o.cacheWrite = some (envelopeFor cfg now v, cfg.ttl)
  ∧ o.setResult = some setOk := by
  subst ho
  cases cached with
  | notFound =>
    simp [fetchStep, runRefetch, fetchResultValue, fetchValueStatus, newFetcherCall]
  | found cv =>
    by_cases htr : cv.isTruthyObject = true
    · cases hua : cv.getField "updateAfter" with
      | vnum t =>
        by_cases hst : now > t
        · simp [fetchStep, htr, hua, hst, runRefetch, fetchResultValue, fetchValueStatus,
            newFetcherCall]
        · exfalso
          simp [fetchStep, htr, hua, hst] at hcalled
      | vundefined => exfalso; simp [fetchStep, htr, hua] at hcalled
      | vnull => exfalso; simp [fetchStep, htr, hua] at hcalled
      | vbool b => exfalso; simp [fetchStep, htr, hua] at hcalled
      | vstr s => exfalso; simp [fetchStep, htr, hua] at hcalled
      | varr es => exfalso; simp [fetchStep, htr, hua] at hcalled
      | vobj fs => exfalso; simp [fetchStep, htr, hua] at hcalled
    · rw [Bool.not_eq_true] at htr
      simp [fetchStep, htr, runRefetch, fetchResultValue, fetchValueStatus, newFetcherCall]

/-- Witness for C10 at a cold miss whose envelope write reports failure. -/
theorem claim_C10_witness :
    fetchResultValue (fetchStep defaultConfig none 0 .notFound (.ok (.vnum 3)) false)
        = .ok (.vnum 3)
  ∧ (fetchStep defaultConfig none 0 .notFound (.ok (.vnum 3)) false).setResult = some false :=
  ⟨(claim_C10 defaultConfig none 0 .notFound (.vnum 3) false
      (fetchStep defaultConfig none 0 .notFound (.ok (.vnum 3)) false) rfl rfl).2.1,
   (claim_C10 defaultConfig none 0 .notFound (.vnum 3) false
      (fetchStep defaultConfig none 0 .notFound (.ok (.vnum 3)) false) rfl rfl).2.2.2.2.2.2⟩

end EgoRedis
